import Mathlib

/-!
Verification development for the scatter-chart service (`src/chart_service.py`).

The algorithmic core of the service is embedded shallowly:

* numeric values are modelled by `ℚ` (exact arithmetic; the Python source
  uses IEEE doubles, but every property below is about exactly
  representable decimal values);
* Python strings are modelled by `String` / `List Char`; the handful of
  regular expressions in the source (`_rgb_re`, the fraction and percent
  patterns of `to_score`, the `\s` / character-class substitutions) are
  translated into deterministic character-list parsers that match the
  same languages;
* fallible Python code (functions that can raise `ValueError`) is
  modelled with `Except String`.

Each definition carries a comment pointing at the source lines it embeds.
-/

namespace ChartService

/-- Characters treated as whitespace by the source: the model of the regex
class `\s` (and of `str.strip()` with no arguments) for the character set
this service encounters: space, tab, newline, carriage return, vertical
tab, form feed and the no-break space U+00A0. -/
def isSpace (c : Char) : Bool :=
  c == '\t' || c == '\n' || c == '\x0b' || c == '\x0c' || c == '\r' || c == ' ' || c == '\u00a0'

/-- The no-break space character bound to `_nbsp` in the source (line 48). -/
def nbsp : Char := '\u00a0'

/-- Model of Python `str.strip()`: drop whitespace from both ends. -/
def trimL (cs : List Char) : List Char :=
  ((cs.dropWhile isSpace).reverse.dropWhile isSpace).reverse

/-- Model of `\s*` in a regex: skip leading whitespace. -/
def skipWs (cs : List Char) : List Char :=
  cs.dropWhile isSpace

/-- Split a character list at the leading run of decimal digits
(the regex `\d*`), returning the digits and the remainder. -/
def takeDigits : List Char → List Char × List Char
  | [] => ([], [])
  | c :: cs =>
    if c.isDigit then
      let (d, r) := takeDigits cs
      (c :: d, r)
    else ([], c :: cs)

/-- Numeric value of a list of decimal digit characters. -/
def digitsToNat (l : List Char) : ℕ :=
  l.foldl (fun a c => 10 * a + (c.toNat - 48)) 0

/-- Read an optional leading sign (regex `[+-]?`); `true` means negative. -/
def readSignB : List Char → Bool × List Char
  | '+' :: r => (false, r)
  | '-' :: r => (true, r)
  | r => (false, r)

/-- Apply a parsed sign to a value. -/
def pySign (neg : Bool) (v : ℚ) : ℚ := if neg then -v else v

/-- Parser for the regex group `([+-]?\d+(?:\.\d+)?)` used by the fraction
and percentage branches of `to_score` (source lines 101 and 107): an
optional sign, one or more digits, and an optional decimal part that must
itself contain at least one digit.  Returns the value and the unconsumed
remainder.  The parser is deterministic; it accepts exactly the strings
the greedy regex group accepts, because every backtracking alternative of
the regex shortens the group only when the following character is a digit
or a dot, which the surrounding patterns (`/`, `%`, end of string,
whitespace) never accept. -/
def parseDecimal (cs : List Char) : Option (ℚ × List Char) :=
  let (neg, cs1) := readSignB cs
  let (ip, cs2) := takeDigits cs1
  if ip = [] then none
  else
    match cs2 with
    | '.' :: cs3 =>
      let (fp, cs4) := takeDigits cs3
      if fp = [] then some (pySign neg (digitsToNat ip : ℚ), '.' :: cs3)
      else some (pySign neg ((digitsToNat ip : ℚ) + (digitsToNat fp : ℚ) / (10 : ℚ) ^ fp.length), cs4)
    | _ => some (pySign neg (digitsToNat ip : ℚ), cs2)

/-- Model of `re.match(r'^\s*([+-]?\d+(?:\.\d+)?)\s*/\s*([+-]?\d+(?:\.\d+)?)\s*$', s)`
from `to_score` (source line 101): the fraction notation `a/b`. -/
def fracMatch (s : String) : Option (ℚ × ℚ) :=
  match parseDecimal (skipWs s.data) with
  | none => none
  | some (a, r1) =>
    match skipWs r1 with
    | '/' :: r2 =>
      match parseDecimal (skipWs r2) with
      | none => none
      | some (b, r3) => if skipWs r3 = [] then some (a, b) else none
    | _ => none

/-- Model of `re.match(r'^\s*([+-]?\d+(?:\.\d+)?)\s*%\s*$', s)` from
`to_score` (source line 107): the percentage notation `p%`. -/
def percentMatch (s : String) : Option ℚ :=
  match parseDecimal (skipWs s.data) with
  | none => none
  | some (p, r1) =>
    match skipWs r1 with
    | '%' :: r2 => if skipWs r2 = [] then some p else none
    | _ => none

/-- Model of the CPython `float(·)` literal parser on the decimal grammar:
optional sign, then either `digits [. digits*]` or `. digits`, then an
optional exponent `e/E [sign] digits`, consuming the whole input.
The `inf`/`nan` spellings and underscore digit separators accepted by
CPython are outside the model (they cannot reach `float` through
`to_float`, whose character filter removes every letter except `e`/`E`
and has no underscore). -/
def pyExpPart (v : ℚ) : List Char → Option ℚ
  | [] => some v
  | c :: cs1 =>
    if c = 'e' ∨ c = 'E' then
      let (neg, cs2) := readSignB cs1
      let (ed, cs3) := takeDigits cs2
      if ed = [] then none
      else if cs3 = [] then
        some (if neg then v / (10 : ℚ) ^ digitsToNat ed else v * (10 : ℚ) ^ digitsToNat ed)
      else none
    else none

/-- Mantissa-and-exponent part of the `float(·)` model; see `pyFloat`. -/
def pyFloatCore (cs : List Char) : Option ℚ :=
  let (neg, cs1) := readSignB cs
  let (ip, cs2) := takeDigits cs1
  match ip, cs2 with
  | [], '.' :: cs3 =>
    let (fp, cs4) := takeDigits cs3
    if fp = [] then none
    else pyExpPart (pySign neg ((digitsToNat fp : ℚ) / (10 : ℚ) ^ fp.length)) cs4
  | [], _ => none
  | _, '.' :: cs3 =>
    let (fp, cs4) := takeDigits cs3
    pyExpPart (pySign neg ((digitsToNat ip : ℚ) + (digitsToNat fp : ℚ) / (10 : ℚ) ^ fp.length)) cs4
  | _, _ => pyExpPart (pySign neg (digitsToNat ip : ℚ)) cs2

/-- Model of Python `float(s)`: `float` itself strips surrounding
whitespace before parsing the literal. -/
def pyFloat (cs : List Char) : Option ℚ :=
  pyFloatCore (trimL cs)

/-- The character class kept by the permissive filter
`re.sub(r"[^0-9eE\.\-+]", "", s)` of `to_float` (source line 86). -/
def keepNum (c : Char) : Bool :=
  c.isDigit || c == 'e' || c == 'E' || c == '.' || c == '-' || c == '+'

/-- The string `to_float` hands to `float(·)` (source lines 84-86):
strip, replace no-break spaces by plain spaces, drop commas, then keep
only digits, `e`, `E`, `.`, `-`, `+`. -/
def filteredOf (val : String) : List Char :=
  (((trimL val.data).map (fun c => if c = nbsp then ' ' else c)).filter
    (fun c => c != ',')).filter keepNum

/-- The explicit rejection list of `to_float` (source line 87):
`s in ("", "-", "+", ".", "e", "E")`. -/
def isSentinel : List Char → Bool
  | [] => true
  | ['-'] => true
  | ['+'] => true
  | ['.'] => true
  | ['e'] => true
  | ['E'] => true
  | _ => false

/-- Model of `to_float` (source lines 82-89).  Raising `ValueError` is
modelled by `Except.error`; both the explicit `raise` on the sentinel
strings and the `ValueError` that `float(·)` itself raises on a filtered
string that is not a valid literal map to the error branch. -/
def to_float (val : String) : Except String ℚ :=
  let s := filteredOf val
  if isSentinel s then .error ("invalid number: " ++ val)
  else
    match pyFloat s with
    | some v => .ok v
    | none => .error ("invalid number: " ++ val)

/-- `max lo (min hi v)`: the clamping pattern `max(lo, min(hi, v))` used
throughout the source. -/
def clampQ (lo hi v : ℚ) : ℚ := max lo (min hi v)

/-- Model of `to_score` (source lines 91-113): fraction notation first,
then percentage, then plain number via `to_float`; every branch clamps to
`[0, 10]`.  In the fraction branch `den = float(m.group(2)) or 1.0`
replaces a zero denominator by `1` (Python truthiness of `0.0`). -/
def to_score (val : String) : Except String ℚ :=
  let s : String := ⟨trimL val.data⟩
  match fracMatch s with
  | some (num, den0) =>
    let den : ℚ := if den0 = 0 then 1 else den0
    .ok (clampQ 0 10 ((num / den) * 10))
  | none =>
    match percentMatch s with
    | some p => .ok (clampQ 0 10 (p / 10))
    | none =>
      match to_float s with
      | .ok v => .ok (clampQ 0 10 v)
      | .error e => .error e


/-! ### Color normalizer (`_parse_rgb_like`, `normalize_color`, source lines 47-80) -/

/-- The sixteen lower-case hexadecimal digit characters.  `normalize_color`
lower-cases its input before any hex parsing, so only these can reach the
hex branch of the matplotlib color parser. -/
def hexChars : List Char := "0123456789abcdef".data

/-- Test for a lower-case hexadecimal digit. -/
def isLHex (c : Char) : Bool :=
  c == '0' || c == '1' || c == '2' || c == '3' || c == '4' || c == '5' || c == '6' ||
  c == '7' || c == '8' || c == '9' || c == 'a' || c == 'b' || c == 'c' || c == 'd' ||
  c == 'e' || c == 'f'

/-- Value of a lower-case hexadecimal digit (list position in `hexChars`). -/
def hexVal (c : Char) : ℕ := hexChars.indexOf c

/-- Model of the anchored prefix `rgba?\(` of the regex
`_rgb_re = re.compile(r"rgba?\(\s*([^)]+)\s*\)", re.IGNORECASE)`
(source line 47), applied with `re.match` (anchored at the start only):
`r`, `g`, `b`, an optional `a`, then `(`; comparisons are
case-insensitive.  Returns the characters after the opening parenthesis. -/
def rgbOpen : List Char → Option (List Char)
  | c1 :: c2 :: c3 :: rest =>
    if c1.toLower = 'r' ∧ c2.toLower = 'g' ∧ c3.toLower = 'b' then
      match rest with
      | c4 :: rest2 =>
        if c4.toLower = 'a' then
          match rest2 with
          | '(' :: rest3 => some rest3
          | _ => none
        else if c4 = '(' then some rest2
        else none
      | [] => none
    else none
  | _ => none

/-- Model of the remainder `\s*([^)]+)\s*\)` of `_rgb_re`: optional
whitespace, then the non-empty capture group of characters up to the first
closing parenthesis, which must exist; trailing characters after `)` are
ignored because `re.match` only anchors the start.  (If the group would
consist of whitespace only, the regex still matches with a blank group;
that group splits into fewer than three usable parts and
`_parse_rgb_like` returns `None` either way, which is the value this
model gives directly.) -/
def rgbGroup (cs : List Char) : Option (List Char) :=
  match rgbOpen cs with
  | none => none
  | some rest =>
    let rest2 := rest.dropWhile isSpace
    let grp := rest2.takeWhile (fun c => c != ')')
    match rest2.dropWhile (fun c => c != ')') with
    | ')' :: _ => if grp = [] then none else some grp
    | _ => none

/-- Model of Python `str.split(",")`: split at every comma, keeping empty
pieces (`"".split(",") == [""]`). -/
def splitComma : List Char → List (List Char)
  | [] => [[]]
  | ',' :: rest => [] :: splitComma rest
  | c :: rest =>
    match splitComma rest with
    | [] => [[c]]
    | h :: t => (c :: h) :: t

/-- One component of an `rgb(...)` list (source lines 58-64): a trailing
`%` means a percentage clamped to `[0, 100]` and divided by `100`,
otherwise a number clamped to `[0, 255]` and divided by `255`.  A
component that `float(·)` cannot parse raises `ValueError`, which is NOT
caught anywhere in `normalize_color`. -/
def parseComponent (p : List Char) : Except String ℚ :=
  match p.getLast? with
  | some '%' =>
    match pyFloat p.dropLast with
    | some v => .ok (clampQ 0 100 v / 100)
    | none => .error "could not convert string to float"
  | _ =>
    match pyFloat p with
    | some v => .ok (clampQ 0 255 v / 255)
    | none => .error "could not convert string to float"

/-- Model of `_parse_rgb_like` (source lines 50-65; the leading underscore
of the Python name is dropped).  `None` (no match, or fewer than three
comma-separated parts) is `.ok none`; a successful parse is
`.ok (some (r, g, b, 1))` with the alpha forced to `1` (fully opaque: a
fourth component is never even parsed, `parts[:3]`); a component that is
not a number is `.error` (uncaught `ValueError`). -/
def parseRgbLike (s : List Char) : Except String (Option (ℚ × ℚ × ℚ × ℚ)) :=
  match rgbGroup s with
  | none => .ok none
  | some grp =>
    match (splitComma grp).map trimL with
    | p1 :: p2 :: p3 :: _ =>
      match parseComponent p1 with
      | .error e => .error e
      | .ok v1 =>
        match parseComponent p2 with
        | .error e => .error e
        | .ok v2 =>
          match parseComponent p3 with
          | .error e => .error e
          | .ok v3 => .ok (some (v1, v2, v3, 1))
    | _ => .ok none

/-- Round half to even on `ℚ`: the model of Python / numpy `round(·)`
used by `matplotlib.colors.to_hex`. -/
def rhe (q : ℚ) : ℤ :=
  if q - ⌊q⌋ < 1/2 then ⌊q⌋
  else if 1/2 < q - ⌊q⌋ then ⌊q⌋ + 1
  else if 2 ∣ ⌊q⌋ then ⌊q⌋ else ⌊q⌋ + 1

/-- One channel of `to_hex`: `int(round(val * 255))`. -/
def byteOf (c : ℚ) : ℕ := (rhe (c * 255)).toNat

/-- Model of Python `format(n, "02x")`: lower-case hexadecimal digits,
left-padded with `0` to at least two characters. -/
def byteHex (n : ℕ) : List Char :=
  let ds := Nat.toDigits 16 n
  List.replicate (2 - ds.length) '0' ++ ds

/-- Model of `matplotlib.colors.to_hex((r, g, b), keep_alpha=False)`
(called at source lines 73 and 78): `#` followed by the three rounded
channels as two hex digits each.  Every call site passes channels in
`[0, 1]` (they are clamped or derived from hex digits), which keeps each
rounded value in `0..255`. -/
def to_hex (r g b : ℚ) : String :=
  ⟨'#' :: (byteHex (byteOf r) ++ byteHex (byteOf g) ++ byteHex (byteOf b))⟩

/-- Channel value of a repeated (3-digit notation) hex digit: `xy` for
digit `x` is `17 * x`, over 255. -/
def q17 (c : Char) : ℚ := ((17 * hexVal c : ℕ) : ℚ) / 255

/-- Channel value of a hex digit pair, over 255. -/
def q2 (h l : Char) : ℚ := ((16 * hexVal h + hexVal l : ℕ) : ℚ) / 255

/-- Model of `matplotlib.colors.to_rgba` (source line 77) restricted to
the hex notations `#rgb`, `#rgba`, `#rrggbb`, `#rrggbbaa`: the 3/4-digit
forms expand per the digit-doubling rule.  The input reaching this call
from `normalize_color` is always lower-cased and whitespace-free, so only
lower-case digits are accepted.  Named colors, grayscale float strings
and the `CN` color-cycle notations also accepted by matplotlib are not
modelled; for them the model takes the parse-failure branch (the one the
caller maps to the default), which does not affect any claim below. -/
def toRgba (s : List Char) : Option (ℚ × ℚ × ℚ × ℚ) :=
  match s with
  | '#' :: r =>
    if r.all isLHex then
      match r with
      | [a, b, c] => some (q17 a, q17 b, q17 c, 1)
      | [a, b, c, d] => some (q17 a, q17 b, q17 c, q17 d)
      | [r1, r2, g1, g2, b1, b2] => some (q2 r1 r2, q2 g1 g2, q2 b1 b2, 1)
      | [r1, r2, g1, g2, b1, b2, a1, a2] => some (q2 r1 r2, q2 g1 g2, q2 b1 b2, q2 a1 a2)
      | _ => none
    else none
  | _ => none

/-- The preprocessing of `normalize_color` (source line 70):
`re.sub(r"\s+", "", str(val).strip().lower())` - strip, lower-case, then
remove all remaining whitespace. -/
def preprocessL (cs : List Char) : List Char :=
  ((trimL cs).map Char.toLower).filter (fun c => !(isSpace c))

/-- Body of `normalize_color` after the falsy check and preprocessing
(source lines 71-80): try `_parse_rgb_like` (a `ValueError` raised there
propagates); on a match return `to_hex` of the three channels; otherwise
prepend `#` to a bare 3- or 6-character string, and try the matplotlib
color parser, catching its `ValueError` into the default. -/
def normalize_color_core (s : List Char) (default : String) : Except String String :=
  match parseRgbLike s with
  | .error e => .error e
  | .ok (some (r, g, b, _)) => .ok (to_hex r g b)
  | .ok none =>
    let s2 := if ¬s.head? = some '#' ∧ (s.length = 3 ∨ s.length = 6) then '#' :: s else s
    match toRgba s2 with
    | some (r, g, b, _) => .ok (to_hex r g b)
    | none => .ok default

/-- Model of `normalize_color` (source lines 67-80).  A falsy (empty)
input returns the default at once; the Python `default="#ffffff"`
parameter is made explicit. -/
def normalize_color (val : String) (default : String) : Except String String :=
  if val = "" then .ok default
  else normalize_color_core (preprocessL val.data) default

/-! ### Layout and compositor (`draw_wrapped_block_fixed`, `render_chart`, source lines 115-183) -/

/-- The geometric part of the text layout computed by
`draw_wrapped_block_fixed` (source lines 121-134).  The pixel positions
`px0`, `px1` come from the rendering backend (`ax.transData.transform`),
and the measured re-centering step at lines 144-148 depends on the
backend text-extent measurement; both are external collaborators, so the
pixel endpoints are parameters here and the model exposes the pure
arithmetic the function performs on them. -/
structure TextLayout where
  avail_w : ℚ
  avail_h : ℚ
  x_left : ℚ
  y_top : ℚ
  wrap_chars : ℤ
  deriving DecidableEq, Repr

/-- Model of the layout arithmetic of `draw_wrapped_block_fixed`
(source lines 115-135):
`avail_w = max(width - 2*pad, 0.1)`, `avail_h = max(height - 2*pad, 0.1)`,
`x_left = x_min + pad`, `y_top = y_min + height - pad`,
`avail_px_w = max(px1 - px0, 1)`,
`approx_char_px = max(1.0, 0.6*font_size)`,
`wrap_chars = max(5, int(avail_px_w / approx_char_px))`.
`int(·)` truncates toward zero; the operands are positive (`avail_px_w`
is at least 1 and `approx_char_px` at least `1.0`), so it is the floor. -/
def draw_wrapped_block_fixed (x_min y_min width height pad font_size px0 px1 : ℚ) :
    TextLayout :=
  let avail_w := max (width - 2 * pad) (1/10)
  let avail_h := max (height - 2 * pad) (1/10)
  let x_left := x_min + pad
  let y_top := y_min + height - pad
  let avail_px_w := max (px1 - px0) 1
  let approx_char_px := max 1 (6/10 * font_size)
  let wrap_chars := max 5 ⌊avail_px_w / approx_char_px⌋
  ⟨avail_w, avail_h, x_left, y_top, wrap_chars⟩

/-- One input row of `render_chart` (source lines 158-165): a dict with
the four mandatory coordinate strings and the optional color/text keys
read through `dict.get`. -/
structure RectRow where
  x_min : String
  x_max : String
  y_min : String
  y_max : String
  fill_colour : Option String
  fill_color : Option String
  text_content : Option String
  text : Option String
  deriving DecidableEq, Repr

/-- One drawn rectangle: the `Rectangle((x_min, y_min), W, H, facecolor=fill)`
patch of source lines 168-173 together with the raw text handed to
`draw_wrapped_block_fixed` for it (line 174). -/
structure Patch where
  x_min : ℚ
  y_min : ℚ
  width : ℚ
  height : ℚ
  fill : String
  text : String
  deriving DecidableEq, Repr

/-- The geometric content of the produced figure: the drawn patches in
order and the scattered point (source line 176).  Axis labels, fixed
limits and PNG rasterization (lines 151-155, 178-183) are constant or
backend work and carry no per-input information beyond this. -/
structure ChartImage where
  patches : List Patch
  point : ℚ × ℚ
  deriving DecidableEq, Repr

/-- Python `a or b` for an optional string `a` (falsy when missing or
empty). -/
def pyOrS (a : Option String) (b : String) : String :=
  match a with
  | some s => if s = "" then b else s
  | none => b

/-- `r.get("fill_colour") or r.get("fill_color") or "#ffffff"`
(source line 163). -/
def fillRawOf (r : RectRow) : String :=
  pyOrS r.fill_colour (pyOrS r.fill_color "#ffffff")

/-- `r.get("text_content", "") or r.get("text", "")` (source line 165). -/
def textOf (r : RectRow) : String :=
  let tc := r.text_content.getD ""
  if tc = "" then r.text.getD "" else tc

/-- The rectangle loop of `render_chart` (source lines 158-174): parse
the four bounds with `to_float` (an unparseable bound raises), silently
skip degenerate rectangles (`x_max <= x_min or y_max <= y_min`), and for
the remaining ones normalize the fill color with default `"#fff2cc"`
(an uncaught `ValueError` from the rgb branch propagates) and record the
patch. -/
def renderRects : List RectRow → Except String (List Patch)
  | [] => .ok []
  | r :: rs =>
    match to_float r.x_min with
    | .error e => .error e
    | .ok x_min =>
      match to_float r.x_max with
      | .error e => .error e
      | .ok x_max =>
        match to_float r.y_min with
        | .error e => .error e
        | .ok y_min =>
          match to_float r.y_max with
          | .error e => .error e
          | .ok y_max =>
            if x_max ≤ x_min ∨ y_max ≤ y_min then renderRects rs
            else
              match normalize_color (fillRawOf r) "#fff2cc" with
              | .error e => .error e
              | .ok fill =>
                match renderRects rs with
                | .error e => .error e
                | .ok ps =>
                  .ok (⟨x_min, y_min, x_max - x_min, y_max - y_min, fill, textOf r⟩ :: ps)

/-- Model of `render_chart` (source lines 150-183).  The scattered point
is `to_score(x_score), to_score(y_score)` applied to floats that are
already numeric (line 176): on the decimal representation of a finite
float the fraction and percent patterns cannot match and the permissive
filter keeps the representation intact, so that second `to_score` pass
reduces to clamping into `[0, 10]`.  There is no emptiness or
degeneracy check anywhere: an empty or fully-degenerate list yields
`.ok` with an empty patch list. -/
def renderChart (rects : List RectRow) (x_score y_score : ℚ) : Except String ChartImage :=
  match renderRects rects with
  | .error e => .error e
  | .ok ps => .ok ⟨ps, (clampQ 0 10 x_score, clampQ 0 10 y_score)⟩


/-- The standard hex doubling expansion: a 3-digit hex list `abc` becomes
`aabbcc`; anything else is left unchanged. -/
def expand3 : List Char → List Char
  | [a, b, c] => [a, a, b, b, c, c]
  | l => l

/-- A canonical opaque color string: `#` followed by exactly six
lower-case hexadecimal digits, the only shape `to_hex` can produce. -/
def isCanonHex (s : String) : Bool :=
  match s.data with
  | '#' :: rest => rest.length == 6 && rest.all isLHex
  | _ => false

/-! ### Toolkit lemmas -/

/-- Clamping into `[0, 10]` really lands in `[0, 10]`. -/
theorem clampQ_mem (v : ℚ) : 0 ≤ clampQ 0 10 v ∧ clampQ 0 10 v ≤ 10 :=
  ⟨le_max_left _ _, max_le (by norm_num) (min_le_left _ _)⟩

/-- The six sentinel strings of `to_float` are not float literals either. -/
theorem pyFloat_of_sentinel (l : List Char) (h : isSentinel l = true) :
    pyFloat l = none := by
  unfold isSentinel at h
  split at h
  · decide
  · decide
  · decide
  · decide
  · decide
  · decide
  · exact absurd h (by simp)

/-- A string matching the percent pattern cannot match the fraction
pattern: both patterns start with the same whitespace-and-decimal prefix
and then require different separator characters. -/
theorem fracMatch_eq_none_of_percent (s : String) (p : ℚ)
    (h : percentMatch s = some p) : fracMatch s = none := by
  unfold percentMatch at h
  unfold fracMatch
  split at h
  · exact absurd h (by simp)
  · rename_i a r1 heq
    split at h
    · rename_i r2 heq2
      split
      · rename_i r2x heq3
        rw [heq2] at heq3
        exact absurd heq3 (by simp)
      · rfl
    · exact absurd h (by simp)

/-! ### Claim theorems: the score parser -/

/-- Claim C6 (confirmed): for every input on which `to_score` succeeds,
the returned value lies in `[0, 10]`; out-of-range values saturate at the
bounds instead of raising. -/
theorem C6_to_score_result_clamped (val : String) (v : ℚ)
    (h : to_score val = .ok v) : 0 ≤ v ∧ v ≤ 10 := by
  simp only [to_score] at h
  split at h
  · simp only [Except.ok.injEq] at h
    exact h ▸ clampQ_mem _
  · split at h
    · simp only [Except.ok.injEq] at h
      exact h ▸ clampQ_mem _
    · split at h
      · simp only [Except.ok.injEq] at h
        exact h ▸ clampQ_mem _
      · exact absurd h (by simp)

/-- Witness for C6: `to_score "1,234"` strips the comma, reads `1234`,
saturates to `10`, and the theorem yields the bounds at that input. -/
theorem C6_witness : to_score "1,234" = Except.ok 10 ∧ (0 ≤ (10 : ℚ) ∧ (10 : ℚ) ≤ 10) := by
  have h : to_score "1,234" = Except.ok 10 := by
    simp +decide [to_score, fracMatch, percentMatch, to_float, filteredOf, pyFloat,
      pyFloatCore, pyExpPart, isSentinel, keepNum, nbsp, parseDecimal, takeDigits,
      digitsToNat, readSignB, pySign, skipWs, trimL, isSpace]
    all_goals norm_num [clampQ, min_def, max_def]
  exact ⟨h, C6_to_score_result_clamped "1,234" 10 h⟩

/-- Claim C3 (confirmed): on every string matching the fraction pattern
`a/b` (optional sign, optional decimals on either side), `to_score`
returns `clamp((a/b)*10, 0, 10)` with a zero denominator replaced by `1`;
in particular `to_score "7/10" = 7` and `to_score "5/0"` does not raise
and returns the finite clamped value `10`. -/
theorem C3_fraction_score :
    (∀ (val : String) (a b : ℚ), fracMatch ⟨trimL val.data⟩ = some (a, b) →
      to_score val = .ok (clampQ 0 10 ((a / (if b = 0 then 1 else b)) * 10))) ∧
    to_score "7/10" = .ok 7 ∧ to_score "5/0" = .ok 10 := by
  refine ⟨fun val a b h => ?_, ?_, ?_⟩
  · simp only [to_score, h]
  · simp +decide [to_score, fracMatch, parseDecimal, takeDigits, digitsToNat,
      readSignB, pySign, skipWs, trimL, isSpace]
    all_goals norm_num [clampQ, min_def, max_def]
  · simp +decide [to_score, fracMatch, parseDecimal, takeDigits, digitsToNat,
      readSignB, pySign, skipWs, trimL, isSpace]
    all_goals norm_num [clampQ, min_def, max_def]

/-- Witness for C3: the fraction `"7/10"` matches the pattern with
`a = 7`, `b = 10`, and the theorem computes the clamped score there. -/
theorem C3_witness :
    fracMatch ⟨trimL ("7/10" : String).data⟩ = some (7, 10) ∧
    to_score "7/10" =
      Except.ok (clampQ 0 10 ((7 / (if (10 : ℚ) = 0 then 1 else 10)) * 10)) := by
  have h : fracMatch ⟨trimL ("7/10" : String).data⟩ = some (7, 10) := by
    simp +decide [fracMatch, parseDecimal, takeDigits, digitsToNat, readSignB,
      pySign, skipWs, trimL, isSpace]
  exact ⟨h, C3_fraction_score.1 "7/10" 7 10 h⟩

/-- Claim C4 (confirmed): on every string matching the percentage pattern
`p%` with `p` between `0` and `1000`, `to_score` returns
`clamp(p/10, 0, 10)`. -/
theorem C4_percent_score (val : String) (p : ℚ)
    (h : percentMatch ⟨trimL val.data⟩ = some p)
    (h0 : 0 ≤ p) (h1 : p ≤ 1000) :
    to_score val = .ok (clampQ 0 10 (p / 10)) := by
  have hf := fracMatch_eq_none_of_percent _ _ h
  simp only [to_score, hf, h]

/-- Witness for C4: `"70%"` matches the percentage pattern with `p = 70`
and the theorem computes the clamped score `7` there. -/
theorem C4_witness :
    percentMatch ⟨trimL ("70%" : String).data⟩ = some 70 ∧
    to_score "70%" = Except.ok (clampQ 0 10 ((70 : ℚ) / 10)) := by
  have h : percentMatch ⟨trimL ("70%" : String).data⟩ = some 70 := by
    simp +decide [percentMatch, parseDecimal, takeDigits, digitsToNat, readSignB,
      pySign, skipWs, trimL, isSpace]
  exact ⟨h, C4_percent_score "70%" 70 h (by norm_num) (by norm_num)⟩

/-- Counterexample to claim C5 as stated: the claim says the plain-number
branch fails exactly on a filtered string that is empty or a bare
sign/decimal point/exponent marker - but `"1.2.3"` filters to itself,
which is none of those, and `to_score` still fails (Python
`float("1.2.3")` raises `ValueError`). -/
theorem C5_counterexample :
    (to_score "1.2.3").isOk = false ∧
    isSentinel (filteredOf ⟨trimL ("1.2.3" : String).data⟩) = false ∧
    filteredOf ⟨trimL ("1.2.3" : String).data⟩ = ['1', '.', '2', '.', '3'] := by
  refine ⟨?_, by decide, by decide⟩
  simp +decide [to_score, fracMatch, percentMatch, to_float, filteredOf, pyFloat,
    pyFloatCore, pyExpPart, isSentinel, keepNum, nbsp, parseDecimal, takeDigits,
    digitsToNat, readSignB, pySign, skipWs, trimL, isSpace, Except.isOk]

/-- Claim C5 (corrected): in the plain-number branch, `to_score` fails
exactly when the filtered string is empty, a bare sign, decimal point or
exponent marker, OR any other string that is not a valid float literal;
in particular `to_score "abc"` fails. -/
theorem C5_plain_branch_failure :
    (∀ val : String, fracMatch ⟨trimL val.data⟩ = none →
      percentMatch ⟨trimL val.data⟩ = none →
      ((to_score val).isOk = false ↔
        (isSentinel (filteredOf ⟨trimL val.data⟩) = true ∨
          pyFloat (filteredOf ⟨trimL val.data⟩) = none))) ∧
    (to_score "abc").isOk = false := by
  constructor
  · intro val hf hp
    simp only [to_score, hf, hp, to_float]
    by_cases hs : isSentinel (filteredOf ⟨trimL val.data⟩) = true
    · simp [hs, pyFloat_of_sentinel _ hs, Except.isOk, Except.toBool]
    · simp only [hs, if_false, Bool.false_eq_true, false_or]
      cases hpf : pyFloat (filteredOf ⟨trimL val.data⟩) with
      | none => simp [Except.isOk, Except.toBool]
      | some v => simp [Except.isOk, Except.toBool]
  · simp +decide [to_score, fracMatch, percentMatch, to_float, filteredOf, pyFloat,
      pyFloatCore, pyExpPart, isSentinel, keepNum, nbsp, parseDecimal, takeDigits,
      digitsToNat, readSignB, pySign, skipWs, trimL, isSpace, Except.isOk]

/-- Witness for C5: at `"abc"` neither the fraction nor the percent
pattern matches, the filter leaves the empty string, and the failure
equivalence of the theorem holds there. -/
theorem C5_witness :
    fracMatch ⟨trimL ("abc" : String).data⟩ = none ∧
    percentMatch ⟨trimL ("abc" : String).data⟩ = none ∧
    ((to_score "abc").isOk = false ↔
      (isSentinel (filteredOf ⟨trimL ("abc" : String).data⟩) = true ∨
        pyFloat (filteredOf ⟨trimL ("abc" : String).data⟩) = none)) := by
  have h1 : fracMatch ⟨trimL ("abc" : String).data⟩ = none := by
    simp +decide [fracMatch, parseDecimal, takeDigits, readSignB, skipWs, trimL, isSpace]
  have h2 : percentMatch ⟨trimL ("abc" : String).data⟩ = none := by
    simp +decide [percentMatch, parseDecimal, takeDigits, readSignB, skipWs, trimL, isSpace]
  exact ⟨h1, h2, C5_plain_branch_failure.1 "abc" h1 h2⟩


/-! ### Character toolkit for the hex lemmas -/

/-- Case analysis on a lower-case hex digit: it is one of the sixteen
characters of `hexChars`. -/
theorem isLHex_elim (P : Char → Prop) (c : Char) (h : isLHex c = true)
    (hall : ∀ x ∈ hexChars, P x) : P c := by
  simp only [isLHex, Bool.or_eq_true, beq_iff_eq] at h
  rcases h with ((((((((((((((rfl|rfl)|rfl)|rfl)|rfl)|rfl)|rfl)|rfl)|rfl)|rfl)|rfl)|rfl)|rfl)|rfl)|rfl)|rfl <;>
    exact hall _ (by decide)

/-- A lower-case hex digit is already lower case. -/
theorem isLHex_toLower (c : Char) (h : isLHex c = true) : c.toLower = c :=
  isLHex_elim (fun x => x.toLower = x) c h (by decide)

/-- A lower-case hex digit is not whitespace. -/
theorem isLHex_not_space (c : Char) (h : isLHex c = true) : isSpace c = false :=
  isLHex_elim (fun x => isSpace x = false) c h (by decide)

/-- A lower-case hex digit does not lower-case to `r` (so a hex string
can never match the `rgb(` prefix). -/
theorem isLHex_toLower_ne_r (c : Char) (h : isLHex c = true) : c.toLower ≠ 'r' :=
  isLHex_elim (fun x => x.toLower ≠ 'r') c h (by decide)

/-- A lower-case hex digit is not the `#` character. -/
theorem isLHex_ne_hash (c : Char) (h : isLHex c = true) : c ≠ '#' :=
  isLHex_elim (fun x => x ≠ '#') c h (by decide)

/-- The value of a lower-case hex digit is below 16. -/
theorem hexVal_lt (c : Char) (h : isLHex c = true) : hexVal c < 16 :=
  isLHex_elim (fun x => hexVal x < 16) c h (by decide)

/-- `dropWhile` is the identity when no element satisfies the predicate. -/
theorem dropWhile_eq_self_of (p : Char → Bool) (l : List Char)
    (h : ∀ c ∈ l, p c = false) : l.dropWhile p = l := by
  cases l with
  | nil => rfl
  | cons a t => simp [List.dropWhile_cons, h a (List.mem_cons_self a t)]

/-- `trimL` is the identity on whitespace-free strings. -/
theorem trimL_eq_self_of (l : List Char) (h : ∀ c ∈ l, isSpace c = false) :
    trimL l = l := by
  unfold trimL
  rw [dropWhile_eq_self_of _ _ h]
  rw [dropWhile_eq_self_of _ _ (fun c hc => h c (List.mem_reverse.mp hc))]
  exact List.reverse_reverse l

/-- Mapping `toLower` over already-lower-case characters changes nothing. -/
theorem map_toLower_eq_self_of (l : List Char) (h : ∀ c ∈ l, c.toLower = c) :
    l.map Char.toLower = l := by
  induction l with
  | nil => rfl
  | cons a t ih =>
    simp only [List.map_cons, h a (List.mem_cons_self a t)]
    rw [ih (fun c hc => h c (List.mem_cons_of_mem a hc))]

/-- `preprocessL` fixes any string of lower-case hex digits and `#`
characters: nothing in it is trimmed, lower-cased or removed. -/
theorem preprocessL_fixed (l : List Char)
    (h : ∀ c ∈ l, isLHex c = true ∨ c = '#') : preprocessL l = l := by
  have hns : ∀ c ∈ l, isSpace c = false := by
    intro c hc
    rcases h c hc with hh | rfl
    · exact isLHex_not_space c hh
    · decide
  have hlo : ∀ c ∈ l, c.toLower = c := by
    intro c hc
    rcases h c hc with hh | rfl
    · exact isLHex_toLower c hh
    · decide
  unfold preprocessL
  rw [trimL_eq_self_of l hns, map_toLower_eq_self_of l hlo]
  rw [List.filter_eq_self.mpr]
  intro c hc
  simp [hns c hc]

/-- The `rgb(` prefix cannot match when the first character does not
lower-case to `r`. -/
theorem rgbOpen_none_of_head (c : Char) (cs : List Char) (h : c.toLower ≠ 'r') :
    rgbOpen (c :: cs) = none := by
  cases cs with
  | nil => rfl
  | cons c2 cs2 =>
    cases cs2 with
    | nil => rfl
    | cons c3 cs3 => simp [rgbOpen, h]

/-- `_parse_rgb_like` returns `None` on any string whose first character
does not lower-case to `r` (and never raises there). -/
theorem parseRgbLike_none_of_head (c : Char) (cs : List Char) (h : c.toLower ≠ 'r') :
    parseRgbLike (c :: cs) = .ok none := by
  unfold parseRgbLike rgbGroup
  rw [rgbOpen_none_of_head c cs h]

/-! ### Claim theorems: the color normalizer (error behavior) -/

/-- Counterexample to claim C2 as stated: `normalize_color` is claimed to
never raise, but on `"rgb(x,0,0)"` the regex matches, the component `x`
reaches `float(·)`, and the resulting `ValueError` is raised outside the
`try` block of `normalize_color`, so the call fails instead of returning
the default. -/
theorem C2_counterexample : (normalize_color "rgb(x,0,0)" "#ffffff").isOk = false := by
  decide

/-- Claim C2 (corrected): `normalize_color` returns a value (the default
on anything unparseable) for every input whose rgb-component parsing does
not raise; the only way it can fail is an error propagated out of the
`rgb(...)`/`rgba(...)` component parsing.  In particular
`normalize_color "not-a-color" d = d` for every default `d`. -/
theorem C2_default_on_unparseable :
    (∀ val d : String, (normalize_color val d).isOk = true ∨
      ∃ e, normalize_color val d = .error e ∧
        parseRgbLike (preprocessL val.data) = .error e) ∧
    ∀ d : String, normalize_color "not-a-color" d = .ok d := by
  constructor
  · intro val d
    unfold normalize_color
    by_cases hv : val = ""
    · simp [hv, Except.isOk, Except.toBool]
    · rw [if_neg hv]
      unfold normalize_color_core
      split
      · rename_i e heq
        exact Or.inr ⟨e, rfl, heq⟩
      · exact Or.inl rfl
      · split
        · left
          simp only [Except.isOk, Except.toBool]
          split
          · rfl
          · rename_i e heq
            split at heq <;> exact absurd heq (by simp)
        · left
          simp only [Except.isOk, Except.toBool]
          split
          · rfl
          · rename_i e heq
            split at heq <;> exact absurd heq (by simp)
  · intro d
    unfold normalize_color
    rw [if_neg (by decide)]
    rfl

/-! ### Claim theorems: the text fitter padding floor -/

/-- Claim C9 (confirmed): the available width/height computed by
`draw_wrapped_block_fixed` are always strictly positive; whenever
removing the padding on both sides would leave a non-positive dimension,
the dimension is clamped to the floor `0.1` instead of failing. -/
theorem C9_padding_floor (x_min y_min width height pad font_size px0 px1 : ℚ) :
    0 < (draw_wrapped_block_fixed x_min y_min width height pad font_size px0 px1).avail_w ∧
    0 < (draw_wrapped_block_fixed x_min y_min width height pad font_size px0 px1).avail_h ∧
    (width - 2 * pad ≤ 0 →
      (draw_wrapped_block_fixed x_min y_min width height pad font_size px0 px1).avail_w = 1/10) ∧
    (height - 2 * pad ≤ 0 →
      (draw_wrapped_block_fixed x_min y_min width height pad font_size px0 px1).avail_h = 1/10) := by
  unfold draw_wrapped_block_fixed
  refine ⟨?_, ?_, fun h => ?_, fun h => ?_⟩
  · exact lt_of_lt_of_le (by norm_num) (le_max_right _ _)
  · exact lt_of_lt_of_le (by norm_num) (le_max_right _ _)
  · exact max_eq_right (le_trans h (by norm_num))
  · exact max_eq_right (le_trans h (by norm_num))

/-- Witness for C9: a 0-by-0 rectangle with padding `0.2` gets the floor
`0.1` as its available width, which is positive. -/
theorem C9_witness :
    0 < (draw_wrapped_block_fixed 0 0 0 0 (1/5) 12 0 100).avail_w ∧
    (draw_wrapped_block_fixed 0 0 0 0 (1/5) 12 0 100).avail_w = 1/10 :=
  ⟨(C9_padding_floor 0 0 0 0 (1/5) 12 0 100).1,
   (C9_padding_floor 0 0 0 0 (1/5) 12 0 100).2.2.1 (by norm_num)⟩

/-! ### Claim theorems: the compositor on empty or degenerate input -/

/-- Counterexample to claim C1 as stated: `render_chart` on an empty
rectangle list is claimed to fail with `NoRenderableGeometry`, but the
code has no such check (or exception) anywhere - the render succeeds and
produces the blank chart carrying only the scattered point. -/
theorem C1_counterexample : renderChart [] 0 0 = .ok ⟨[], (0, 0)⟩ := by
  simp only [renderChart, renderRects]
  norm_num [clampQ, min_def, max_def]

/-- Claim C1 (corrected): on an empty rectangle list, or on a list whose
rectangles all have parseable bounds but are all degenerate
(`x_max <= x_min or y_max <= y_min`), `render_chart` does NOT fail: every
degenerate rectangle is silently skipped and the render succeeds with no
patches, drawing only the clamped point. -/
theorem C1_degenerate_render_succeeds (rects : List RectRow) (x y : ℚ)
    (h : ∀ r ∈ rects, ∃ a b c d, to_float r.x_min = .ok a ∧ to_float r.x_max = .ok b ∧
      to_float r.y_min = .ok c ∧ to_float r.y_max = .ok d ∧ (b ≤ a ∨ d ≤ c)) :
    renderChart rects x y = .ok ⟨[], (clampQ 0 10 x, clampQ 0 10 y)⟩ := by
  suffices hs : renderRects rects = .ok [] by simp [renderChart, hs]
  induction rects with
  | nil => rfl
  | cons r rs ih =>
    obtain ⟨a, b, c, d, h1, h2, h3, h4, h5⟩ := h r (List.mem_cons_self r rs)
    have ih' := ih (fun r' hr' => h r' (List.mem_cons_of_mem r hr'))
    unfold renderRects
    rw [h1, h2, h3, h4]
    simp only
    rw [if_pos h5]
    exact ih'

/-- Witness for C1: a single rectangle with `x_max = x_min = 1` is
degenerate; the render succeeds with no patches and the point clamped
from `(3, 11)` to `(3, 10)`. -/
theorem C1_witness :
    renderChart [⟨"1", "1", "0", "2", none, none, none, none⟩] 3 11 =
      .ok ⟨[], (clampQ 0 10 3, clampQ 0 10 11)⟩ := by
  refine C1_degenerate_render_succeeds _ 3 11 ?_
  intro r hr
  rw [List.mem_singleton] at hr
  subst hr
  refine ⟨1, 1, 0, 2, ?_, ?_, ?_, ?_, Or.inl le_rfl⟩ <;>
    simp +decide [to_float, filteredOf, pyFloat, pyFloatCore, pyExpPart, isSentinel,
      keepNum, nbsp, trimL, isSpace, takeDigits, digitsToNat, readSignB, pySign]

/-! ### Bounds toolkit for the color pipeline -/

/-- Clamping into `[0, hi]` lands in `[0, hi]`. -/
theorem clampQ_mem_of (hi v : ℚ) (h : 0 ≤ hi) :
    0 ≤ clampQ 0 hi v ∧ clampQ 0 hi v ≤ hi :=
  ⟨le_max_left _ _, max_le h (min_le_left _ _)⟩

/-- A successfully parsed rgb component is a normalized channel in `[0, 1]`. -/
theorem parseComponent_bounds (p : List Char) (v : ℚ)
    (h : parseComponent p = .ok v) : 0 ≤ v ∧ v ≤ 1 := by
  unfold parseComponent at h
  split at h
  · split at h
    · simp only [Except.ok.injEq] at h
      subst h
      constructor
      · exact div_nonneg (clampQ_mem_of 100 _ (by norm_num)).1 (by norm_num)
      · rw [div_le_one (by norm_num)]
        exact (clampQ_mem_of 100 _ (by norm_num)).2
    · exact absurd h (by simp)
  · split at h
    · simp only [Except.ok.injEq] at h
      subst h
      constructor
      · exact div_nonneg (clampQ_mem_of 255 _ (by norm_num)).1 (by norm_num)
      · rw [div_le_one (by norm_num)]
        exact (clampQ_mem_of 255 _ (by norm_num)).2
    · exact absurd h (by simp)

/-- A successful `_parse_rgb_like` parse yields three channels in `[0, 1]`
and the constant alpha `1`. -/
theorem parseRgbLike_bounds (s : List Char) (r g b a : ℚ)
    (h : parseRgbLike s = .ok (some (r, g, b, a))) :
    (0 ≤ r ∧ r ≤ 1) ∧ (0 ≤ g ∧ g ≤ 1) ∧ (0 ≤ b ∧ b ≤ 1) ∧ a = 1 := by
  unfold parseRgbLike at h
  split at h
  · exact absurd h (by simp)
  · split at h
    · rename_i p1 p2 p3 rest
      split at h
      · exact absurd h (by simp)
      · rename_i v1 h1
        split at h
        · exact absurd h (by simp)
        · rename_i v2 h2
          split at h
          · exact absurd h (by simp)
          · rename_i v3 h3
            simp only [Except.ok.injEq, Option.some.injEq, Prod.mk.injEq] at h
            obtain ⟨hr, hg, hb, ha⟩ := h
            subst hr; subst hg; subst hb
            exact ⟨parseComponent_bounds _ _ h1, parseComponent_bounds _ _ h2,
              parseComponent_bounds _ _ h3, ha.symm⟩
    · exact absurd h (by simp)

/-- Round half to even of an integer is the integer itself. -/
theorem rhe_intCast (z : ℤ) : rhe (z : ℚ) = z := by
  unfold rhe
  rw [Int.floor_intCast]
  rw [if_pos (by norm_num)]

/-- Rounding a nonnegative rational is nonnegative. -/
theorem rhe_nonneg (q : ℚ) (h : 0 ≤ q) : 0 ≤ rhe q := by
  have hf : (0 : ℤ) ≤ ⌊q⌋ := Int.floor_nonneg.mpr h
  unfold rhe
  split
  · exact hf
  · split
    · omega
    · split <;> omega

/-- Rounding keeps values at most `255` at most `255`. -/
theorem rhe_le_255 (q : ℚ) (h : q ≤ 255) : rhe q ≤ 255 := by
  have hfl : (⌊q⌋ : ℚ) ≤ q := Int.floor_le q
  have h255 : ⌊q⌋ ≤ 255 := by
    have h2 : ⌊q⌋ ≤ ⌊(255 : ℚ)⌋ := Int.floor_le_floor h
    simpa using h2
  have key : 1/2 ≤ q - ⌊q⌋ → ⌊q⌋ + 1 ≤ 255 := by
    intro hh
    have hlt : ⌊q⌋ < 255 := by
      by_contra hge
      push_neg at hge
      have hc : (255 : ℚ) ≤ (⌊q⌋ : ℚ) := by exact_mod_cast hge
      linarith
    omega
  rcases lt_or_le (q - ⌊q⌋) (1/2) with hl | hl
  · rw [rhe, if_pos hl]
    exact h255
  · rw [rhe, if_neg (not_lt.mpr hl)]
    have hk := key hl
    split
    · exact hk
    · split
      · exact h255
      · exact hk

/-- A channel in `[0, 1]` rounds to a byte value at most `255`. -/
theorem byteOf_le_255 (c : ℚ) (h0 : 0 ≤ c) (h1 : c ≤ 1) : byteOf c ≤ 255 := by
  unfold byteOf
  have hub : c * 255 ≤ 255 := by linarith
  have hle := rhe_le_255 _ hub
  omega

set_option maxRecDepth 4000 in
/-- For byte values, `format(n, "02x")` yields exactly two lower-case hex
digits. -/
theorem byteHex_canon (n : ℕ) (h : n ≤ 255) :
    (byteHex n).length = 2 ∧ (byteHex n).all isLHex = true := by
  have hall : ∀ m ∈ List.range 256,
      (byteHex m).length = 2 ∧ (byteHex m).all isLHex = true := by decide
  exact hall n (List.mem_range.mpr (by omega))

/-- With all three channels in `[0, 1]`, `to_hex` produces a canonical
`#rrggbb` string: seven characters, a leading `#`, six lower-case hex
digits, no alpha. -/
theorem to_hex_canon (r g b : ℚ) (hr : 0 ≤ r ∧ r ≤ 1) (hg : 0 ≤ g ∧ g ≤ 1)
    (hb : 0 ≤ b ∧ b ≤ 1) : isCanonHex (to_hex r g b) = true := by
  obtain ⟨l1, a1⟩ := byteHex_canon (byteOf r) (byteOf_le_255 r hr.1 hr.2)
  obtain ⟨l2, a2⟩ := byteHex_canon (byteOf g) (byteOf_le_255 g hg.1 hg.2)
  obtain ⟨l3, a3⟩ := byteHex_canon (byteOf b) (byteOf_le_255 b hb.1 hb.2)
  unfold isCanonHex to_hex
  simp [List.all_append, a1, a2, a3, List.length_append, l1, l2, l3]

/-- The value of a lower-case hex digit char over 255 rounds back to the
byte it denotes: `n/255` scaled by `255` is `n`. -/
theorem byteOf_div255 (n : ℕ) : byteOf ((n : ℚ) / 255) = n := by
  unfold byteOf
  have h : ((n : ℚ) / 255) * 255 = ((n : ℤ) : ℚ) := by push_cast; field_simp
  rw [h, rhe_intCast]
  simp

/-- Byte value of a 3-digit-notation channel. -/
theorem byteOf_q17 (c : Char) : byteOf (q17 c) = 17 * hexVal c := by
  unfold q17
  exact byteOf_div255 _

/-- Byte value of a hex-pair channel. -/
theorem byteOf_q2 (h l : Char) : byteOf (q2 h l) = 16 * hexVal h + hexVal l := by
  unfold q2
  exact byteOf_div255 _

/-- The repeated-pair channel value equals the 3-digit channel value:
the digit-doubling rule. -/
theorem q2_same (c : Char) : q2 c c = q17 c := by
  unfold q2 q17
  congr 1
  push_cast
  ring

/-- Channel bounds for the 3-digit hex notation. -/
theorem q17_bounds (c : Char) (h : isLHex c = true) : 0 ≤ q17 c ∧ q17 c ≤ 1 := by
  have hv := hexVal_lt c h
  unfold q17
  constructor
  · positivity
  · rw [div_le_one (by norm_num)]
    have hle : (17 * hexVal c : ℕ) ≤ 255 := by omega
    exact_mod_cast hle

/-- Channel bounds for the paired hex notation. -/
theorem q2_bounds (h l : Char) (hh : isLHex h = true) (hl : isLHex l = true) :
    0 ≤ q2 h l ∧ q2 h l ≤ 1 := by
  have hv1 := hexVal_lt h hh
  have hv2 := hexVal_lt l hl
  unfold q2
  constructor
  · positivity
  · rw [div_le_one (by norm_num)]
    have hle : (16 * hexVal h + hexVal l : ℕ) ≤ 255 := by omega
    exact_mod_cast hle

/-- Every channel produced by the hex parser is in `[0, 1]`. -/
theorem toRgba_bounds (s : List Char) (r g b a : ℚ)
    (h : toRgba s = some (r, g, b, a)) :
    (0 ≤ r ∧ r ≤ 1) ∧ (0 ≤ g ∧ g ≤ 1) ∧ (0 ≤ b ∧ b ≤ 1) := by
  unfold toRgba at h
  split at h
  · rename_i rest
    split at h
    · rename_i hall
      split at h
      · rename_i c1 c2 c3
        simp only [List.all_cons, List.all_nil, Bool.and_eq_true, and_true] at hall
        simp only [Option.some.injEq, Prod.mk.injEq] at h
        obtain ⟨h1, h2, h3, h4⟩ := h
        subst h1; subst h2; subst h3
        exact ⟨q17_bounds _ hall.1, q17_bounds _ hall.2.1, q17_bounds _ hall.2.2⟩
      · rename_i c1 c2 c3 c4
        simp only [List.all_cons, List.all_nil, Bool.and_eq_true, and_true] at hall
        simp only [Option.some.injEq, Prod.mk.injEq] at h
        obtain ⟨h1, h2, h3, h4⟩ := h
        subst h1; subst h2; subst h3
        exact ⟨q17_bounds _ hall.1, q17_bounds _ hall.2.1, q17_bounds _ hall.2.2.1⟩
      · rename_i c1 c2 c3 c4 c5 c6
        simp only [List.all_cons, List.all_nil, Bool.and_eq_true, and_true] at hall
        simp only [Option.some.injEq, Prod.mk.injEq] at h
        obtain ⟨h1, h2, h3, h4⟩ := h
        subst h1; subst h2; subst h3
        exact ⟨q2_bounds _ _ hall.1 hall.2.1, q2_bounds _ _ hall.2.2.1 hall.2.2.2.1,
          q2_bounds _ _ hall.2.2.2.2.1 hall.2.2.2.2.2⟩
      · rename_i c1 c2 c3 c4 c5 c6 c7 c8
        simp only [List.all_cons, List.all_nil, Bool.and_eq_true, and_true] at hall
        simp only [Option.some.injEq, Prod.mk.injEq] at h
        obtain ⟨h1, h2, h3, h4⟩ := h
        subst h1; subst h2; subst h3
        exact ⟨q2_bounds _ _ hall.1 hall.2.1, q2_bounds _ _ hall.2.2.1 hall.2.2.2.1,
          q2_bounds _ _ hall.2.2.2.2.1 hall.2.2.2.2.2.1⟩
      · exact absurd h (by simp)
    · exact absurd h (by simp)
  · exact absurd h (by simp)

/-! ### The hex branch of the normalizer -/

/-- Expansion preserves the all-hex property. -/
theorem expand3_all (d : List Char) (h : d.all isLHex = true) :
    (expand3 d).all isLHex = true := by
  unfold expand3
  split
  · rename_i a b c
    simp only [List.all_cons, List.all_nil, Bool.and_eq_true, and_true] at h ⊢
    exact ⟨h.1, h.1, h.2.1, h.2.1, h.2.2, h.2.2⟩
  · exact h

/-- Expansion does nothing to a 6-character list. -/
theorem expand3_len6 (d : List Char) (h : d.length = 6) : expand3 d = d := by
  unfold expand3
  split
  · rename_i a b c
    simp at h
  · rfl

/-- The matplotlib hex parser gives the same channels to a 3-digit hex
string and to its doubled 6-digit expansion. -/
theorem toRgba_expand3 (d : List Char) (hall : d.all isLHex = true)
    (hlen : d.length = 3 ∨ d.length = 6) :
    toRgba ('#' :: expand3 d) = toRgba ('#' :: d) := by
  rcases hlen with h3 | h6
  · rcases d with _ | ⟨a, d⟩
    · simp at h3
    rcases d with _ | ⟨b, d⟩
    · simp at h3
    rcases d with _ | ⟨c, d⟩
    · simp at h3
    rcases d with _ | ⟨x, d⟩
    swap
    · simp at h3
    simp only [List.all_cons, List.all_nil, Bool.and_eq_true, and_true] at hall
    obtain ⟨ha, hb, hc⟩ := hall
    show toRgba ('#' :: [a, a, b, b, c, c]) = toRgba ('#' :: [a, b, c])
    simp [toRgba, List.all_cons, ha, hb, hc, q2_same]
  · rw [expand3_len6 d h6]

/-- On a bare string of 3 or 6 lower-case hex digits, the body of
`normalize_color` skips the rgb branch, prepends `#`, and hands the
result to the matplotlib parser. -/
theorem normalize_color_core_hex (l : List Char) (dflt : String)
    (hall : l.all isLHex = true) (hlen : l.length = 3 ∨ l.length = 6) :
    normalize_color_core l dflt =
      match toRgba ('#' :: l) with
      | some (r, g, b, _) => .ok (to_hex r g b)
      | none => .ok dflt := by
  obtain ⟨c, t, rfl⟩ : ∃ c t, l = c :: t := by
    cases l with
    | nil => simp at hlen
    | cons c t => exact ⟨c, t, rfl⟩
  have hc : isLHex c = true := by
    simp only [List.all_cons, Bool.and_eq_true] at hall
    exact hall.1
  unfold normalize_color_core
  rw [parseRgbLike_none_of_head c t (isLHex_toLower_ne_r c hc)]
  simp only
  rw [if_pos ⟨by simp [isLHex_ne_hash c hc], hlen⟩]

/-- On a `#`-prefixed string, the body of `normalize_color` skips both
the rgb branch and the prepending step. -/
theorem normalize_color_core_hash (l : List Char) (dflt : String) :
    normalize_color_core ('#' :: l) dflt =
      match toRgba ('#' :: l) with
      | some (r, g, b, _) => .ok (to_hex r g b)
      | none => .ok dflt := by
  unfold normalize_color_core
  rw [parseRgbLike_none_of_head '#' l (by decide)]
  simp only
  rw [if_neg (by simp)]

/-! ### Claim theorems: hex equivalence, rgb components, canonical form -/

/-- Claim C7 (confirmed): every valid 3- or 6-digit hex color string,
with or without a leading `#`, in any letter case and with any
surrounding or internal whitespace (that is: any string whose
preprocessed form is the digit list `d` or `#` followed by `d`), is
normalized to the same canonical value as the standard 6-digit lower-case
form, with 3-digit hex expanded by the doubling rule. -/
theorem C7_hex_notation_equivalence (s dflt : String) (d : List Char)
    (hall : d.all isLHex = true) (hlen : d.length = 3 ∨ d.length = 6)
    (hpre : preprocessL s.data = d ∨ preprocessL s.data = '#' :: d) :
    normalize_color s dflt = normalize_color ⟨'#' :: expand3 d⟩ dflt := by
  have hs : s ≠ "" := by
    intro h
    subst h
    rw [show preprocessL ("" : String).data = [] from rfl] at hpre
    rcases hpre with h | h
    · rw [← h] at hlen
      simp at hlen
    · exact absurd h (by simp)
  have hrne : (⟨'#' :: expand3 d⟩ : String) ≠ "" := by
    intro h
    exact absurd (congrArg String.data h) (List.cons_ne_nil _ _)
  have hfix : ∀ c ∈ '#' :: expand3 d, isLHex c = true ∨ c = '#' := by
    intro c hc
    rcases List.mem_cons.mp hc with rfl | hc
    · exact Or.inr rfl
    · exact Or.inl (List.all_eq_true.mp (expand3_all d hall) c hc)
  unfold normalize_color
  rw [if_neg hs, if_neg hrne]
  rw [show (⟨'#' :: expand3 d⟩ : String).data = '#' :: expand3 d from rfl]
  rw [preprocessL_fixed ('#' :: expand3 d) hfix]
  rw [normalize_color_core_hash (expand3 d) dflt]
  rcases hpre with h | h <;> rw [h]
  · rw [normalize_color_core_hex d dflt hall hlen]
    rw [toRgba_expand3 d hall hlen]
  · rw [normalize_color_core_hash d dflt]
    rw [toRgba_expand3 d hall hlen]

/-- Witness for C7: the spaced mixed-case string `" A b C "` preprocesses
to `abc`, normalizes like `#aabbcc`, and the resulting canonical value is
`#aabbcc`. -/
theorem C7_witness :
    preprocessL (" A b C " : String).data = ['a', 'b', 'c'] ∧
    normalize_color " A b C " "#123456" =
      normalize_color ⟨'#' :: expand3 ['a', 'b', 'c']⟩ "#123456" ∧
    normalize_color ⟨'#' :: expand3 ['a', 'b', 'c']⟩ "#123456" = .ok "#aabbcc" := by
  have h1 : preprocessL (" A b C " : String).data = ['a', 'b', 'c'] := by decide
  have h2 := C7_hex_notation_equivalence " A b C " "#123456" ['a', 'b', 'c']
    (by decide) (Or.inl (by decide)) (Or.inl h1)
  refine ⟨h1, h2, ?_⟩
  show normalize_color "#aabbcc" "#123456" = .ok "#aabbcc"
  unfold normalize_color
  rw [if_neg (by decide)]
  rw [show preprocessL ("#aabbcc" : String).data = '#' :: ['a', 'a', 'b', 'b', 'c', 'c']
    from by decide]
  rw [normalize_color_core_hash]
  rw [show toRgba ('#' :: ['a', 'a', 'b', 'b', 'c', 'c']) =
    some (q2 'a' 'a', q2 'b' 'b', q2 'c' 'c', 1) from rfl]
  simp only
  rw [show to_hex (q2 'a' 'a') (q2 'b' 'b') (q2 'c' 'c') = "#aabbcc" from by
    unfold to_hex
    rw [byteOf_q2, byteOf_q2, byteOf_q2]
    decide]

/-- Claim C8 (confirmed): on every string matching the rgb/rgba pattern
whose first three comma-separated components parse as numbers (plain
0-255 or percentages), `normalize_color` returns `to_hex` of the three
independently clamped, `[0,1]`-normalized channels, and the alpha is the
constant `1` (fully opaque, any fourth component discarded); in
particular `normalize_color "rgb(255, 0, 0)"` equals
`normalize_color "#ff0000"`. -/
theorem C8_rgb_clamped_opaque :
    (∀ (val d : String) (r g b a : ℚ),
      parseRgbLike (preprocessL val.data) = .ok (some (r, g, b, a)) →
      normalize_color val d = .ok (to_hex r g b) ∧ a = 1 ∧
      (0 ≤ r ∧ r ≤ 1) ∧ (0 ≤ g ∧ g ≤ 1) ∧ (0 ≤ b ∧ b ≤ 1)) ∧
    ∀ d : String, normalize_color "rgb(255, 0, 0)" d = normalize_color "#ff0000" d := by
  constructor
  · intro val d r g b a h
    have hbd := parseRgbLike_bounds _ _ _ _ _ h
    have hval : val ≠ "" := by
      intro hv
      subst hv
      rw [show preprocessL ("" : String).data = [] from rfl] at h
      rw [show parseRgbLike [] = .ok none from rfl] at h
      simp at h
    refine ⟨?_, hbd.2.2.2, hbd.1, hbd.2.1, hbd.2.2.1⟩
    unfold normalize_color
    rw [if_neg hval]
    unfold normalize_color_core
    rw [h]
  · intro d
    have h1 : parseRgbLike (preprocessL ("rgb(255, 0, 0)" : String).data) =
        .ok (some (1, 0, 0, 1)) := by
      rw [show preprocessL ("rgb(255, 0, 0)" : String).data =
        ("rgb(255,0,0)" : String).data from by decide]
      simp +decide [parseRgbLike, rgbGroup, rgbOpen, splitComma, trimL, isSpace,
        parseComponent, pyFloat, pyFloatCore, pyExpPart, takeDigits, digitsToNat,
        readSignB, pySign]
      norm_num [clampQ, min_def, max_def]
    have h2 : normalize_color "rgb(255, 0, 0)" d = .ok (to_hex 1 0 0) := by
      unfold normalize_color
      rw [if_neg (by decide)]
      unfold normalize_color_core
      rw [h1]
    have h3 : normalize_color "#ff0000" d =
        .ok (to_hex (q2 'f' 'f') (q2 '0' '0') (q2 '0' '0')) := by
      unfold normalize_color
      rw [if_neg (by decide)]
      rw [show preprocessL ("#ff0000" : String).data =
        '#' :: ['f', 'f', '0', '0', '0', '0'] from by decide]
      rw [normalize_color_core_hash]
      rw [show toRgba ('#' :: ['f', 'f', '0', '0', '0', '0']) =
        some (q2 'f' 'f', q2 '0' '0', q2 '0' '0', 1) from rfl]
    have e1 : q2 'f' 'f' = 1 := by
      unfold q2
      rw [show hexVal 'f' = 15 from by decide]
      norm_num
    have e2 : q2 '0' '0' = 0 := by
      unfold q2
      rw [show hexVal '0' = 0 from by decide]
      norm_num
    rw [h2, h3, e1, e2]

/-- Witness for C8: `"rgb(10%,0,300)"` parses with the percentage
component normalized to `1/10`, the component `300` clamped to `255` and
normalized to `1`, and the theorem gives the normalized result and
bounds at that input. -/
theorem C8_witness :
    parseRgbLike (preprocessL ("rgb(10%,0,300)" : String).data) =
      .ok (some (1/10, 0, 1, 1)) ∧
    normalize_color "rgb(10%,0,300)" "#000000" = .ok (to_hex (1/10) 0 1) ∧
    (1 : ℚ) = 1 := by
  have h : parseRgbLike (preprocessL ("rgb(10%,0,300)" : String).data) =
      .ok (some (1/10, 0, 1, 1)) := by
    rw [show preprocessL ("rgb(10%,0,300)" : String).data =
      ("rgb(10%,0,300)" : String).data from by decide]
    simp +decide [parseRgbLike, rgbGroup, rgbOpen, splitComma, trimL, isSpace,
      parseComponent, pyFloat, pyFloatCore, pyExpPart, takeDigits, digitsToNat,
      readSignB, pySign]
    norm_num [clampQ, min_def, max_def]
  have hc := C8_rgb_clamped_opaque.1 "rgb(10%,0,300)" "#000000" (1/10) 0 1 1 h
  exact ⟨h, hc.1, hc.2.1⟩

/-- Claim C10 (confirmed): every value `normalize_color` returns is
either the supplied default, unchanged, or a canonical opaque color:
`#` followed by exactly six lower-case hex digits, with no alpha
channel. -/
theorem C10_canonical_result (val d r : String)
    (h : normalize_color val d = .ok r) : r = d ∨ isCanonHex r = true := by
  unfold normalize_color at h
  split at h
  · simp only [Except.ok.injEq] at h
    exact Or.inl h.symm
  · unfold normalize_color_core at h
    split at h
    · exact absurd h (by simp)
    · rename_i r' g' b' a' heq
      simp only [Except.ok.injEq] at h
      subst h
      have hb := parseRgbLike_bounds _ _ _ _ _ heq
      exact Or.inr (to_hex_canon _ _ _ hb.1 hb.2.1 hb.2.2.1)
    · simp only at h
      split at h
      · rename_i r' g' b' a' heq
        simp only [Except.ok.injEq] at h
        subst h
        have hb := toRgba_bounds _ _ _ _ _ heq
        exact Or.inr (to_hex_canon _ _ _ hb.1 hb.2.1 hb.2.2)
      · simp only [Except.ok.injEq] at h
        exact Or.inl h.symm

/-- Witness for C10: `"#abc"` normalizes to `"#aabbcc"`, which the
theorem certifies is either the default or canonical (here: canonical). -/
theorem C10_witness :
    normalize_color "#abc" "#ffffff" = .ok "#aabbcc" ∧
    ("#aabbcc" = "#ffffff" ∨ isCanonHex "#aabbcc" = true) := by
  have h : normalize_color "#abc" "#ffffff" = .ok "#aabbcc" := by
    unfold normalize_color
    rw [if_neg (by decide)]
    rw [show preprocessL ("#abc" : String).data = '#' :: ['a', 'b', 'c'] from by decide]
    rw [normalize_color_core_hash]
    rw [show toRgba ('#' :: ['a', 'b', 'c']) =
      some (q17 'a', q17 'b', q17 'c', 1) from rfl]
    simp only
    rw [show to_hex (q17 'a') (q17 'b') (q17 'c') = "#aabbcc" from by
      unfold to_hex
      rw [byteOf_q17, byteOf_q17, byteOf_q17]
      decide]
  exact ⟨h, C10_canonical_result "#abc" "#ffffff" "#aabbcc" h⟩

end ChartService
